import Mathlib

/-!
Verification of the Klaviyo flow-builder application.

The repository has two relevant modules:
* the server API route (file `src/unnamed/part_000`) exporting `sanitizePayload`,
  `validatePayload` and the `POST` handler;
* the client form (file `src/agentic-app/src/app/page.tsx`) whose `handleSubmit`
  serializes the form state into the request payload.

Strings are modelled as lists of characters (`JStr`), so that the JavaScript
`String.prototype.trim` can be embedded directly and reasoned about.

Two embeddings of the server's sanitizer are given, both translated from the
same source function:
* a typed one (`sanitizePayload`) over the TypeScript `FlowRequestPayload`
  shape, where fields guarded in the source by optional chaining (`?.`) or
  nullish coalescing (`??`) are `Option`-typed;
* a dynamic one (`sanitizePayloadDyn`) over arbitrary JSON values (`JValue`),
  modelling the JavaScript runtime semantics of the same code: member access on
  `null`/`undefined` throws, calling `.trim()` or `.map` on a value that lacks
  the method throws.  A thrown `TypeError` is the `Except.error ()` case.

The `POST` handler is embedded as a pure function of the configured API key,
the JSON-parse result of the request body, the flow-definition builder, and the
outcome of the single outbound `fetch`.
-/

/-- JavaScript strings, modelled as lists of characters. -/
abbrev JStr := List Char

/-- Whitespace recognised by `String.prototype.trim`.  The embedding covers the
ASCII whitespace characters; the additional Unicode space code points accepted
by JavaScript are omitted, which affects no claim. -/
def isWS (c : Char) : Bool :=
  c == ' ' || c == '\t' || c == '\n' || c == '\r' || c == '\x0b' || c == '\x0c'

/-- `String.prototype.trim`: drop whitespace from both ends. -/
def jsTrim (s : JStr) : JStr :=
  ((s.dropWhile isWS).reverse.dropWhile isWS).reverse

theorem dropWhile_head_not (p : Char → Bool) :
    ∀ (l : List Char) (c : Char) (t : List Char),
      l.dropWhile p = c :: t → p c = false := by
  intro l
  induction l with
  | nil => intro c t h; simp [List.dropWhile] at h
  | cons a as ih =>
    intro c t h
    by_cases ha : p a
    · rw [List.dropWhile_cons_of_pos ha] at h
      exact ih c t h
    · rw [List.dropWhile_cons_of_neg ha] at h
      cases h
      simpa using ha

theorem dropWhile_self_idem (p : Char → Bool) (l : List Char) :
    (l.dropWhile p).dropWhile p = l.dropWhile p := by
  cases h : l.dropWhile p with
  | nil => simp
  | cons c t =>
    have hc : p c = false := dropWhile_head_not p l c t h
    rw [List.dropWhile_cons_of_neg (by simp [hc])]

theorem dropWhile_append_eq (p : Char → Bool) (l : List Char) :
    ∃ t, l = t ++ l.dropWhile p := by
  induction l with
  | nil => exact ⟨[], rfl⟩
  | cons a as ih =>
    by_cases ha : p a
    · rw [List.dropWhile_cons_of_pos ha]
      obtain ⟨t, ht⟩ := ih
      exact ⟨a :: t, by rw [List.cons_append, ← ht]⟩
    · exact ⟨[], by rw [List.dropWhile_cons_of_neg ha]; rfl⟩

theorem jsTrim_idem (s : JStr) : jsTrim (jsTrim s) = jsTrim s := by
  unfold jsTrim
  set a := s.dropWhile isWS with ha
  set r := a.reverse.dropWhile isWS with hr
  have h1 : r.reverse.dropWhile isWS = r.reverse := by
    cases hrv : r.reverse with
    | nil => simp
    | cons c t =>
      obtain ⟨pre, hpre⟩ := dropWhile_append_eq isWS a.reverse
      have haa : a = r.reverse ++ pre.reverse := by
        have h2 := congrArg List.reverse hpre
        simpa [← hr] using h2
      have hc : isWS c = false := by
        apply dropWhile_head_not isWS s c (t ++ pre.reverse)
        rw [← ha, haa, hrv]; rfl
      rw [List.dropWhile_cons_of_neg (by simp [hc])]
  rw [h1, List.reverse_reverse, hr, dropWhile_self_idem]

/-- JSON runtime values, plus the JavaScript `undefined`.  Numbers are modelled
as rationals; the floating-point values `NaN` and `Infinity` are outside the
model (no claim depends on them). -/
inductive JValue where
  | undefined : JValue
  | null : JValue
  | bool : Bool → JValue
  | num : ℚ → JValue
  | str : JStr → JValue
  | arr : List JValue → JValue
  | obj : List (JStr × JValue) → JValue

/-- Decimal rendering of a number inside a template literal.  The exact digit
string JavaScript produces is abstracted by the `Rat` printer; no claim
depends on the rendering of numeric tracking fields. -/
def ratDecStr (q : ℚ) : JStr := (toString q).data

mutual

/-- One element of `Array.prototype.join`: `null` and `undefined` render empty,
everything else renders as its string coercion. -/
def jsJoinElem : JValue → JStr
  | .undefined => []
  | .null => []
  | .bool true => "true".data
  | .bool false => "false".data
  | .num q => ratDecStr q
  | .str s => s
  | .arr xs => jsArrayJoin xs
  | .obj _ => "[object Object]".data

/-- `Array.prototype.join` with the default comma separator. -/
def jsArrayJoin : List JValue → JStr
  | [] => []
  | [x] => jsJoinElem x
  | x :: y :: rest => jsJoinElem x ++ [','] ++ jsArrayJoin (y :: rest)

end

/-- JavaScript string coercion, as performed by a template literal. -/
def jsToString : JValue → JStr
  | .undefined => "undefined".data
  | .null => "null".data
  | .bool true => "true".data
  | .bool false => "false".data
  | .num q => ratDecStr q
  | .str s => s
  | .arr xs => jsArrayJoin xs
  | .obj _ => "[object Object]".data

/-- JavaScript truthiness.  (`NaN`, which is also falsy, is outside the
number model.) -/
def jsTruthy : JValue → Bool
  | .undefined => false
  | .null => false
  | .bool b => b
  | .num q => !(q == 0)
  | .str s => !s.isEmpty
  | .arr _ => true
  | .obj _ => true

/-- JavaScript member access `v[name]`: throws a `TypeError` on `null` and
`undefined`, looks up own properties of an object (missing gives `undefined`),
and gives `undefined` on every other value (none of the property names the
route reads collides with a built-in method of a primitive or array). -/
def getField (v : JValue) (name : JStr) : Except Unit JValue :=
  match v with
  | .undefined => .error ()
  | .null => .error ()
  | .obj fields => .ok ((fields.lookup name).getD .undefined)
  | _ => .ok .undefined

/-- The `delay` record of a step.  `value` is `none` when the incoming JSON
value is not a number (the `typeof step.delay.value` guard in the source). -/
structure RawDelay where
  value : Option ℚ
  unit : Option JStr
  timezone : Option JStr
deriving DecidableEq

/-- One `customTracking` row.  A field is `none` when it is `null` or
`undefined` in the request (the `track.param ?? ""` guard in the source). -/
structure RawTrack where
  param : Option JStr
  value : Option JStr
deriving DecidableEq

/-- One email step of the request payload.  Fields that the source reads
through optional chaining may be absent (`none`). -/
structure RawStep where
  internalName : Option JStr
  subjectLine : Option JStr
  previewText : Option JStr
  fromEmail : Option JStr
  fromName : Option JStr
  replyToEmail : Option JStr
  ccEmail : Option JStr
  bccEmail : Option JStr
  templateId : Option JStr
  smartSendingEnabled : Bool
  status : Option JStr
  delay : Option RawDelay
  customTracking : Option (List RawTrack)
deriving DecidableEq

/-- The `trigger` record.  The source forwards `payload.trigger.type` without
any coercion, so the field can hold any JSON value (validation later compares
it against the two supported strings). -/
structure RawTrigger where
  type : JValue
  id : JStr

/-- The request payload (`FlowRequestPayload`). -/
structure RawPayload where
  flowName : JStr
  trigger : RawTrigger
  steps : List RawStep

def VALID_STATUSES : List JStr :=
  ["draft".data, "live".data, "manual".data, "disabled".data]

def VALID_UNITS : List JStr :=
  ["minutes".data, "hours".data, "days".data]

/-- `normalizeDelayUnit`: keep a recognised unit, default to `"days"`. -/
def normalizeDelayUnit (unit : Option JStr) : JStr :=
  match unit with
  | some u => if u ∈ VALID_UNITS then u else "days".data
  | none => "days".data

/-- `normalizeStatus`: keep a recognised status, default to `"draft"`. -/
def normalizeStatus (status : Option JStr) : JStr :=
  match status with
  | some s => if s ∈ VALID_STATUSES then s else "draft".data
  | none => "draft".data

/-- `x?.trim() ?? ""` on a `string | undefined` field. -/
def optTrim (o : Option JStr) : JStr :=
  match o with
  | some s => jsTrim s
  | none => []

/-- `Math.round`, JavaScript semantics: round half toward positive infinity. -/
def mathRound (v : ℚ) : ℚ := ((⌊v + 1/2⌋ : ℤ) : ℚ)

/-- `step.delay.timezone?.trim() || "profile"`. -/
def delayTimezoneOf (o : Option JStr) : JStr :=
  match o with
  | some s => if jsTrim s = [] then "profile".data else jsTrim s
  | none => "profile".data

/-- The per-row map of the `customTracking` normalization:
`{ param: `${track.param ?? ""}`.trim(), value: `${track.value ?? ""}`.trim() }`
(at this typed level the template literal is the identity on strings). -/
def sanitizeTrack (t : RawTrack) : RawTrack :=
  ⟨some (jsTrim (t.param.getD [])), some (jsTrim (t.value.getD []))⟩

/-- The `customTracking` filter: `track.param && track.value`, i.e. both
strings non-empty. -/
def trackKeep (t : RawTrack) : Bool :=
  !(t.param.getD []).isEmpty && !(t.value.getD []).isEmpty

/-- The delay expression of the per-step normalization:
`step.delay && typeof step.delay.value === "number" && step.delay.value > 0
  ? { value: Math.max(0, Math.round(step.delay.value)),
      unit: normalizeDelayUnit(step.delay.unit),
      timezone: step.delay.timezone?.trim() || "profile" }
  : null`. -/
def sanitizeDelay : Option RawDelay → Option RawDelay
  | some d =>
    match d.value with
    | some v =>
      if 0 < v then
        some ⟨some (max 0 (mathRound v)),
              some (normalizeDelayUnit d.unit),
              some (delayTimezoneOf d.timezone)⟩
      else none
    | none => none
  | none => none

/-- The tracking expression of the per-step normalization:
`Array.isArray(step.customTracking)
  ? step.customTracking.map(...).filter(...) : []`. -/
def sanitizeTracking : Option (List RawTrack) → List RawTrack
  | some rows => (rows.map sanitizeTrack).filter trackKeep
  | none => []

/-- The per-step body of `sanitizePayload`. -/
def sanitizeStep (step : RawStep) : RawStep where
  internalName := some (optTrim step.internalName)
  subjectLine := some (optTrim step.subjectLine)
  previewText := some (optTrim step.previewText)
  fromEmail := some (optTrim step.fromEmail)
  fromName := some (optTrim step.fromName)
  replyToEmail := some (optTrim step.replyToEmail)
  ccEmail := some (optTrim step.ccEmail)
  bccEmail := some (optTrim step.bccEmail)
  templateId := some (optTrim step.templateId)
  smartSendingEnabled := step.smartSendingEnabled
  status := some (normalizeStatus step.status)
  delay := sanitizeDelay step.delay
  customTracking := some (sanitizeTracking step.customTracking)

/-- `sanitizePayload`: trim the top-level strings and normalize every step. -/
def sanitizePayload (payload : RawPayload) : RawPayload where
  flowName := jsTrim payload.flowName
  trigger := ⟨payload.trigger.type, jsTrim payload.trigger.id⟩
  steps := payload.steps.map sanitizeStep

/-- `["list", "segment"].includes(payload.trigger.type)`: strict equality
against the two supported trigger strings. -/
def isTriggerTypeValid : JValue → Bool
  | .str s => s == "list".data || s == "segment".data
  | _ => false

/-- `!step.subjectLine || !step.fromEmail || !step.fromName`: a step field is
falsy when it is `undefined` or the empty string. -/
def stepInvalid (s : RawStep) : Bool :=
  (s.subjectLine.getD []).isEmpty || (s.fromEmail.getD []).isEmpty ||
    (s.fromName.getD []).isEmpty

/-- `Array.prototype.findIndex` specialised to the invalid-step predicate. -/
def findInvalidIdx : List RawStep → Option ℕ
  | [] => none
  | s :: rest =>
    if stepInvalid s then some 0 else (findInvalidIdx rest).map (· + 1)

def msgFlowNameRequired : JStr := "Flow name is required.".data

def msgTriggerType : JStr :=
  "Unsupported trigger type. Only list and segment triggers are supported.".data

def msgTriggerId : JStr := "Trigger identifier is required.".data

def msgStepsRequired : JStr := "At least one email step is required.".data

/-- The first-invalid-step message, with the 1-based position interpolated. -/
def stepMissingMsg (n : ℕ) : JStr :=
  "Step ".data ++ (Nat.repr n).data ++
    " is missing subject, from name, or from email.".data

/-- `validatePayload`: the early-return chain of checks of the source,
returning the first failing check's message. -/
def validatePayload (payload : RawPayload) : Option JStr :=
  if payload.flowName.isEmpty then some msgFlowNameRequired
  else if !isTriggerTypeValid payload.trigger.type then some msgTriggerType
  else if payload.trigger.id.isEmpty then some msgTriggerId
  else if payload.steps.isEmpty then some msgStepsRequired
  else
    match findInvalidIdx payload.steps with
    | some i => some (stepMissingMsg (i + 1))
    | none => none

/-- Dynamic `x?.trim() ?? ""`: `null`/`undefined` give the empty string,
a string is trimmed, and any other value throws (no `trim` method). -/
def strTrimOrEmpty : JValue → Except Unit JStr
  | .str s => .ok (jsTrim s)
  | .null => .ok []
  | .undefined => .ok []
  | _ => .error ()

/-- Dynamic `x.trim()` with no guard: throws unless `x` is a string. -/
def strTrimStrict : JValue → Except Unit JStr
  | .str s => .ok (jsTrim s)
  | _ => .error ()

/-- Dynamic `normalizeStatus`: `includes` uses strict equality, so only a
string can match, and everything else defaults to `"draft"`. -/
def normalizeStatusJ : JValue → JStr
  | .str s => normalizeStatus (some s)
  | _ => normalizeStatus none

/-- Dynamic `normalizeDelayUnit`. -/
def normalizeDelayUnitJ : JValue → JStr
  | .str s => normalizeDelayUnit (some s)
  | _ => normalizeDelayUnit none

/-- Dynamic `timezone?.trim() || "profile"`: throws when the field holds a
value that is neither a string nor `null`/`undefined`. -/
def delayTimezoneJ : JValue → Except Unit JStr
  | .str s => .ok (delayTimezoneOf (some s))
  | .null => .ok (delayTimezoneOf none)
  | .undefined => .ok (delayTimezoneOf none)
  | _ => .error ()

/-- Dynamic `x ?? ""` followed by a template literal. -/
def templateStr : JValue → JStr
  | .null => []
  | .undefined => []
  | v => jsToString v

/-- Dynamic per-row `customTracking` map: reading `track.param` throws when
the row itself is `null`/`undefined`. -/
def sanitizeTrackDyn (t : JValue) : Except Unit RawTrack := do
  let p ← getField t "param".data
  let v ← getField t "value".data
  Except.ok ⟨some (jsTrim (templateStr p)), some (jsTrim (templateStr v))⟩

/-- Dynamic per-step body of `sanitizePayload`, in the evaluation order of the
source's object literal. -/
def sanitizeStepDyn (step : JValue) : Except Unit RawStep := do
  let internalName ← strTrimOrEmpty (← getField step "internalName".data)
  let subjectLine ← strTrimOrEmpty (← getField step "subjectLine".data)
  let previewText ← strTrimOrEmpty (← getField step "previewText".data)
  let fromEmail ← strTrimOrEmpty (← getField step "fromEmail".data)
  let fromName ← strTrimOrEmpty (← getField step "fromName".data)
  let replyToEmail ← strTrimOrEmpty (← getField step "replyToEmail".data)
  let ccEmail ← strTrimOrEmpty (← getField step "ccEmail".data)
  let bccEmail ← strTrimOrEmpty (← getField step "bccEmail".data)
  let templateId ← strTrimOrEmpty (← getField step "templateId".data)
  let smart ← getField step "smartSendingEnabled".data
  let statusV ← getField step "status".data
  let delayV ← getField step "delay".data
  let delay ←
    if jsTruthy delayV then do
      let valueV ← getField delayV "value".data
      match valueV with
      | .num q =>
        if 0 < q then do
          let unitV ← getField delayV "unit".data
          let tzV ← getField delayV "timezone".data
          let tz ← delayTimezoneJ tzV
          Except.ok (some (⟨some (max 0 (mathRound q)),
            some (normalizeDelayUnitJ unitV), some tz⟩ : RawDelay))
        else Except.ok none
      | _ => Except.ok none
    else Except.ok (none : Option RawDelay)
  let ctV ← getField step "customTracking".data
  let ct ←
    match ctV with
    | .arr xs => do
      let rows ← xs.mapM sanitizeTrackDyn
      Except.ok (rows.filter trackKeep)
    | _ => Except.ok ([] : List RawTrack)
  Except.ok
    { internalName := some internalName
      subjectLine := some subjectLine
      previewText := some previewText
      fromEmail := some fromEmail
      fromName := some fromName
      replyToEmail := some replyToEmail
      ccEmail := some ccEmail
      bccEmail := some bccEmail
      templateId := some templateId
      smartSendingEnabled := jsTruthy smart
      status := some (normalizeStatusJ statusV)
      delay := delay
      customTracking := some ct }

/-- Dynamic `sanitizePayload` over an arbitrary JSON body: `payload.steps.map`
runs first and throws unless `steps` is an array; the returned object literal
then reads `flowName`, `trigger.type` and `trigger.id`. -/
def sanitizePayloadDyn (payload : JValue) : Except Unit RawPayload := do
  let stepsV ← getField payload "steps".data
  let steps ←
    match stepsV with
    | .arr xs => xs.mapM sanitizeStepDyn
    | _ => Except.error ()
  let flowName ← strTrimStrict (← getField payload "flowName".data)
  let triggerV ← getField payload "trigger".data
  let ttype ← getField triggerV "type".data
  let tid ← strTrimStrict (← getField triggerV "id".data)
  Except.ok ⟨flowName, ⟨ttype, tid⟩, steps⟩

def msgKeyMissing : JStr := "KLAVIYO_API_KEY is not configured on the server.".data

def msgInvalidJson : JStr := "Invalid JSON payload.".data

def msgKlaviyoFailed : JStr := "Klaviyo API request failed.".data

def msgReachFailed : JStr := "Failed to reach Klaviyo API.".data

/-- The JSON body of a handler response:
`{ error?: string, details?: unknown, data?: unknown }`. -/
structure PostReply where
  status : ℕ
  error : Option JStr
  details : Option JValue
  dataField : Option JValue

/-- The observable outcome of one `POST` invocation: either a JSON reply, or
an exception that escapes the handler (nothing in the route catches it). -/
inductive PostOutcome where
  | uncaught : PostOutcome
  | reply : PostReply → PostOutcome

/-- Handler outcome paired with whether the outbound provider call was made. -/
structure PostResult where
  outcome : PostOutcome
  calledProvider : Bool

/-- The outcome of the single outbound `fetch` to the provider.  `completed`
carries the HTTP status and the parsed response body; the source maps a body
that fails to parse to `null` (`.catch(() => null)`), so that case is the
`JValue.null` body.  `failed` is a transport-level rejection carrying the
error message. -/
inductive FetchOutcome where
  | completed : ℕ → JValue → FetchOutcome
  | failed : JStr → FetchOutcome

/-- `json ?? undefined` on the provider body: a `null` body leaves `details`
absent. -/
def jsonDetails : JValue → Option JValue
  | .null => none
  | v => some v

/-- The `POST` handler.  `apiKey` is `process.env.KLAVIYO_API_KEY` (`none`
when unset); `body` is the result of `await request.json()` (`Except.error`
carries the parse-error message); `fetchOutcome` is the outcome of the
outbound call, consumed only when the handler reaches it.

Modelled from the spec: `buildFlowDefinition` lives in `@/lib/klaviyo`, which
is not part of the sources; per the spec it is a deterministic translation of
the normalized payload that may fail with a thrown message, so the handler is
parameterized by a function `build` returning the definition or the thrown
error message. -/
def POST (apiKey : Option JStr) (body : Except JStr JValue)
    (build : RawPayload → Except JStr JValue)
    (fetchOutcome : FetchOutcome) : PostResult :=
  if (apiKey.getD []).isEmpty then
    ⟨.reply ⟨500, some msgKeyMissing, none, none⟩, false⟩
  else
    match body with
    | .error msg => ⟨.reply ⟨400, some msgInvalidJson, some (.str msg), none⟩, false⟩
    | .ok j =>
      match sanitizePayloadDyn j with
      | .error _ => ⟨.uncaught, false⟩
      | .ok p =>
        match validatePayload p with
        | some m => ⟨.reply ⟨400, some m, none, none⟩, false⟩
        | none =>
          match build p with
          | .error m => ⟨.reply ⟨400, some m, none, none⟩, false⟩
          | .ok _ =>
            match fetchOutcome with
            | .completed st json =>
              if 200 ≤ st ∧ st ≤ 299 then
                ⟨.reply ⟨200, none, none, some json⟩, true⟩
              else
                ⟨.reply ⟨st, some msgKlaviyoFailed, jsonDetails json, none⟩, true⟩
            | .failed m =>
              ⟨.reply ⟨502, some msgReachFailed, some (.str m), none⟩, true⟩

/-- One tracking row of the client form state. -/
structure TrackingRow where
  rowId : JStr
  param : JStr
  value : JStr

/-- The client form state for one email step (`EmailStepForm` in
`page.tsx`).  `delayValue` is `none` when the entered number is not finite
(the `Number.isFinite` guard in the serializer). -/
structure EmailStepForm where
  stepId : JStr
  internalName : JStr
  subjectLine : JStr
  previewText : JStr
  fromEmail : JStr
  fromName : JStr
  replyToEmail : JStr
  ccEmail : JStr
  bccEmail : JStr
  templateId : JStr
  smartSendingEnabled : Bool
  status : JStr
  addTrackingParams : Bool
  trackingRows : List TrackingRow
  delayEnabled : Bool
  delayValue : Option ℚ
  delayUnit : JStr
  delayTimezone : JStr

/-- The per-step serialization of `handleSubmit` in `page.tsx`. -/
def serializeStep (s : EmailStepForm) : RawStep where
  internalName := some (jsTrim s.internalName)
  subjectLine := some (jsTrim s.subjectLine)
  previewText := some (jsTrim s.previewText)
  fromEmail := some (jsTrim s.fromEmail)
  fromName := some (jsTrim s.fromName)
  replyToEmail :=
    some (jsTrim (if s.replyToEmail.isEmpty then s.fromEmail else s.replyToEmail))
  ccEmail := some (jsTrim s.ccEmail)
  bccEmail := some (jsTrim s.bccEmail)
  templateId := some (jsTrim s.templateId)
  smartSendingEnabled := s.smartSendingEnabled
  status := some s.status
  delay :=
    if s.delayEnabled then
      some ⟨some (match s.delayValue with
                  | some q => max 0 (mathRound q)
                  | none => 0),
            some s.delayUnit, some s.delayTimezone⟩
    else none
  customTracking :=
    some (if s.addTrackingParams then
            ((s.trackingRows.map
              (fun r => (⟨some (jsTrim r.param), some (jsTrim r.value)⟩ : RawTrack))).filter
              trackKeep)
          else [])

/-- The full submission payload built by `handleSubmit`. -/
def clientPayload (flowName : JStr) (triggerType : JStr) (triggerId : JStr)
    (steps : List EmailStepForm) : RawPayload :=
  ⟨jsTrim flowName, ⟨.str triggerType, jsTrim triggerId⟩, steps.map serializeStep⟩

theorem jsTrim_nil : jsTrim [] = [] := rfl

theorem optTrim_some_optTrim (o : Option JStr) :
    optTrim (some (optTrim o)) = optTrim o := by
  cases o with
  | none => simp [optTrim, jsTrim_nil]
  | some s => simp [optTrim, jsTrim_idem]

theorem normalizeStatus_mem (o : Option JStr) :
    normalizeStatus o ∈ VALID_STATUSES := by
  cases o with
  | none => decide
  | some s =>
    by_cases h : s ∈ VALID_STATUSES
    · simp [normalizeStatus, h]
    · simp [normalizeStatus, h]; decide

theorem normalizeDelayUnit_mem (o : Option JStr) :
    normalizeDelayUnit o ∈ VALID_UNITS := by
  cases o with
  | none => decide
  | some s =>
    by_cases h : s ∈ VALID_UNITS
    · simp [normalizeDelayUnit, h]
    · simp [normalizeDelayUnit, h]; decide

theorem normalizeStatus_idem (o : Option JStr) :
    normalizeStatus (some (normalizeStatus o)) = normalizeStatus o := by
  have h := normalizeStatus_mem o
  show (if normalizeStatus o ∈ VALID_STATUSES then normalizeStatus o
        else "draft".data) = normalizeStatus o
  rw [if_pos h]

theorem normalizeDelayUnit_idem (o : Option JStr) :
    normalizeDelayUnit (some (normalizeDelayUnit o)) = normalizeDelayUnit o := by
  have h := normalizeDelayUnit_mem o
  show (if normalizeDelayUnit o ∈ VALID_UNITS then normalizeDelayUnit o
        else "days".data) = normalizeDelayUnit o
  rw [if_pos h]

theorem delayTimezoneOf_trimmed (o : Option JStr) :
    jsTrim (delayTimezoneOf o) = delayTimezoneOf o ∧ delayTimezoneOf o ≠ [] := by
  cases o with
  | none => exact ⟨by decide, by decide⟩
  | some s =>
    by_cases h : jsTrim s = []
    · simp only [delayTimezoneOf, h, if_pos]
      exact ⟨by decide, by decide⟩
    · simp only [delayTimezoneOf, h, if_neg]
      exact ⟨jsTrim_idem s, by simpa [jsTrim_idem] using h⟩

theorem delayTimezoneOf_idem (o : Option JStr) :
    delayTimezoneOf (some (delayTimezoneOf o)) = delayTimezoneOf o := by
  obtain ⟨h1, h2⟩ := delayTimezoneOf_trimmed o
  show (if jsTrim (delayTimezoneOf o) = [] then "profile".data
        else jsTrim (delayTimezoneOf o)) = delayTimezoneOf o
  rw [h1, if_neg h2]

theorem sanitizeTrack_idem (t : RawTrack) :
    sanitizeTrack (sanitizeTrack t) = sanitizeTrack t := by
  simp [sanitizeTrack, jsTrim_idem]

theorem tracking_round (rows : List RawTrack) :
    ((((rows.map sanitizeTrack).filter trackKeep).map sanitizeTrack).filter trackKeep)
      = (rows.map sanitizeTrack).filter trackKeep := by
  have hmap : ((rows.map sanitizeTrack).filter trackKeep).map sanitizeTrack
      = (rows.map sanitizeTrack).filter trackKeep := by
    have hcongr : ((rows.map sanitizeTrack).filter trackKeep).map sanitizeTrack
        = ((rows.map sanitizeTrack).filter trackKeep).map id := by
      apply List.map_congr_left
      intro x hx
      have hx2 : x ∈ rows.map sanitizeTrack := List.mem_of_mem_filter hx
      obtain ⟨a, _, ha⟩ := List.mem_map.mp hx2
      rw [← ha, sanitizeTrack_idem]; rfl
    rw [hcongr, List.map_id]
  rw [hmap]
  apply List.filter_eq_self.mpr
  intro a ha
  exact List.of_mem_filter ha

/-- `Math.round` is the identity on integer-valued rationals. -/
theorem mathRound_intCast (n : ℤ) : mathRound ((n : ℤ) : ℚ) = ((n : ℤ) : ℚ) := by
  unfold mathRound
  rw [Int.floor_int_add]
  norm_num

/-- Delays whose positive numeric value rounds to a positive integer: the
condition under which the normalized delay survives a second normalization. -/
def delaySafe (st : RawStep) : Prop :=
  ∀ d v, st.delay = some d → d.value = some v → 0 < v → 1/2 ≤ v

theorem sanitizeDelay_idem (o : Option RawDelay)
    (h : ∀ d v, o = some d → d.value = some v → 0 < v → 1/2 ≤ v) :
    sanitizeDelay (sanitizeDelay o) = sanitizeDelay o := by
  cases o with
  | none => rfl
  | some d =>
    cases hv : d.value with
    | none => simp [sanitizeDelay, hv]
    | some v =>
      by_cases hpos : 0 < v
      · have hhalf : (1:ℚ)/2 ≤ v := h d v rfl hv hpos
        have hfl : 1 ≤ ⌊v + 1/2⌋ := by
          rw [Int.le_floor]; push_cast; linarith
        have hmx : max 0 (mathRound v) = mathRound v := by
          apply max_eq_right
          unfold mathRound
          exact_mod_cast le_trans zero_le_one hfl
        have hpos2 : 0 < max 0 (mathRound v) := by
          rw [hmx]; unfold mathRound
          exact_mod_cast lt_of_lt_of_le Int.zero_lt_one hfl
        have hround : mathRound (mathRound v) = mathRound v := mathRound_intCast _
        simp only [sanitizeDelay, hv, if_pos hpos, if_pos hpos2, hmx, hround,
          normalizeDelayUnit_idem, delayTimezoneOf_idem]
        rw [if_pos (hmx ▸ hpos2)]
      · simp [sanitizeDelay, hv, if_neg hpos]

theorem sanitizeTracking_idem (o : Option (List RawTrack)) :
    sanitizeTracking (some (sanitizeTracking o)) = sanitizeTracking o := by
  cases o with
  | none => rfl
  | some rows => exact tracking_round rows

theorem sanitizeStep_idem (st : RawStep) (h : delaySafe st) :
    sanitizeStep (sanitizeStep st) = sanitizeStep st := by
  have hdel : sanitizeDelay (sanitizeDelay st.delay) = sanitizeDelay st.delay :=
    sanitizeDelay_idem st.delay h
  simp only [sanitizeStep]
  rw [RawStep.mk.injEq]
  refine ⟨?_, ?_, ?_, ?_, ?_, ?_, ?_, ?_, ?_, rfl, ?_, ?_, ?_⟩
  · exact congrArg some (optTrim_some_optTrim st.internalName)
  · exact congrArg some (optTrim_some_optTrim st.subjectLine)
  · exact congrArg some (optTrim_some_optTrim st.previewText)
  · exact congrArg some (optTrim_some_optTrim st.fromEmail)
  · exact congrArg some (optTrim_some_optTrim st.fromName)
  · exact congrArg some (optTrim_some_optTrim st.replyToEmail)
  · exact congrArg some (optTrim_some_optTrim st.ccEmail)
  · exact congrArg some (optTrim_some_optTrim st.bccEmail)
  · exact congrArg some (optTrim_some_optTrim st.templateId)
  · exact congrArg some (normalizeStatus_idem st.status)
  · exact hdel
  · exact congrArg some (sanitizeTracking_idem st.customTracking)

/-- The input refuting the idempotence claim: a delay value `2/5` is positive,
so the first normalization keeps the delay, but `Math.round` takes it to `0`,
so the second normalization drops the delay to `null`. -/
def cexStep : RawStep :=
  ⟨none, none, none, none, none, none, none, none, none, false, none,
   some ⟨some (2/5), some ("days".data), some ("x".data)⟩, none⟩

def cexPayload : RawPayload := ⟨[], ⟨.null, []⟩, [cexStep]⟩

theorem cexStep_first_pass : (sanitizeStep cexStep).delay
    = some ⟨some 0, some ("days".data), some ("x".data)⟩ := by
  have hu : normalizeDelayUnit (some ("days".data)) = "days".data := by decide
  have ht : delayTimezoneOf (some ("x".data)) = "x".data := by decide
  have hr : mathRound (2/5) = 0 := by
    unfold mathRound
    norm_num
  show sanitizeDelay (some ⟨some (2/5), some ("days".data), some ("x".data)⟩)
      = some ⟨some 0, some ("days".data), some ("x".data)⟩
  simp only [sanitizeDelay]
  rw [if_pos (by norm_num : (0:ℚ) < 2/5), hu, ht, hr]
  norm_num

theorem cexStep_second_pass : (sanitizeStep (sanitizeStep cexStep)).delay = none := by
  show sanitizeDelay ((sanitizeStep cexStep).delay) = none
  rw [cexStep_first_pass]
  simp [sanitizeDelay]

/-- Claim C1 is false as stated: sanitizePayload is not idempotent.  At the
concrete payload whose only step carries the delay value 2/5, the first
normalization keeps a zero-valued delay (2/5 is positive but rounds to 0) and
the second normalization maps that delay to null, so the two results differ. -/
theorem c1_counterexample :
    ¬ (sanitizePayload (sanitizePayload cexPayload) = sanitizePayload cexPayload) := by
  intro h
  have hsteps : ([sanitizeStep (sanitizeStep cexStep)] : List RawStep)
      = [sanitizeStep cexStep] := congrArg RawPayload.steps h
  have h3 : sanitizeStep (sanitizeStep cexStep) = sanitizeStep cexStep := by
    injection hsteps
  have h4 := congrArg RawStep.delay h3
  rw [cexStep_second_pass, cexStep_first_pass] at h4
  exact Option.noConfusion h4

/-- Claim C1 (amended): sanitizePayload is idempotent on every payload in
which no step carries a delay whose numeric value lies strictly between 0 and
1/2 (exactly the values that are positive but round to zero); for such
payloads, sanitizePayload (sanitizePayload p) = sanitizePayload p. -/
theorem c1_sanitize_idempotent (p : RawPayload)
    (h : ∀ st ∈ p.steps, delaySafe st) :
    sanitizePayload (sanitizePayload p) = sanitizePayload p := by
  simp only [sanitizePayload]
  rw [RawPayload.mk.injEq]
  refine ⟨jsTrim_idem _, ?_, ?_⟩
  · rw [RawTrigger.mk.injEq]
    exact ⟨rfl, jsTrim_idem _⟩
  · rw [List.map_map]
    apply List.map_congr_left
    intro st hst
    exact sanitizeStep_idem st (h st hst)

/-- A payload whose single step has delay value 3: it satisfies the amended
hypothesis of C1. -/
def safePayload : RawPayload :=
  ⟨"Welcome".data, ⟨.str ("list".data), "ABC".data⟩,
   [⟨none, some ("Hi".data), none, some ("a@b.com".data), some ("Team".data),
     none, none, none, none, true, some ("live".data),
     some ⟨some 3, some ("hours".data), none⟩, some []⟩]⟩

/-- Witness for C1 (amended): the hypothesis holds at safePayload, and the
theorem yields idempotence there. -/
theorem c1_sanitize_idempotent_witness :
    (∀ st ∈ safePayload.steps, delaySafe st) ∧
      sanitizePayload (sanitizePayload safePayload) = sanitizePayload safePayload := by
  have hsafe : ∀ st ∈ safePayload.steps, delaySafe st := by
    intro st hst
    rw [show safePayload.steps
        = [⟨none, some ("Hi".data), none, some ("a@b.com".data), some ("Team".data),
            none, none, none, none, true, some ("live".data),
            some ⟨some 3, some ("hours".data), none⟩, some []⟩] from rfl,
      List.mem_singleton] at hst
    subst hst
    intro d v hd hv hpos
    cases hd
    cases hv
    norm_num
  exact ⟨hsafe, c1_sanitize_idempotent safePayload hsafe⟩

/-- Claim C3: the normalized delay of every step is absent exactly when no
positive numeric delay value is present (delay missing, value not a number, or
value at most zero); when the value v is a number with 0 < v, the delay is
kept with value Math.max(0, Math.round(v)) — a non-negative integer — the
normalized unit, and the timezone defaulted to "profile" when blank. -/
theorem c3_delay_normalization (st : RawStep) :
    ((sanitizeStep st).delay = none ↔
      ∀ d v, st.delay = some d → d.value = some v → v ≤ 0)
    ∧ (∀ d v, st.delay = some d → d.value = some v → 0 < v →
        (sanitizeStep st).delay =
          some ⟨some (max 0 (mathRound v)), some (normalizeDelayUnit d.unit),
                some (delayTimezoneOf d.timezone)⟩)
    ∧ (∀ v : ℚ, 0 ≤ max 0 (mathRound v) ∧
        ∃ n : ℤ, max 0 (mathRound v) = (n : ℚ))
    ∧ (∀ o : Option JStr,
        (o = none ∨ ∃ s, o = some s ∧ jsTrim s = []) →
          delayTimezoneOf o = "profile".data) := by
  refine ⟨?_, ?_, ?_, ?_⟩
  · show sanitizeDelay st.delay = none ↔ _
    cases hd : st.delay with
    | none =>
      simp only [sanitizeDelay]
      constructor
      · intro _ d v hdd _; exact Option.noConfusion hdd
      · intro _; trivial
    | some d =>
      cases hv : d.value with
      | none =>
        simp only [sanitizeDelay, hv]
        constructor
        · intro _ d2 v hdd hvv
          cases hdd
          rw [hv] at hvv
          exact Option.noConfusion hvv
        · intro _; trivial
      | some v =>
        simp only [sanitizeDelay, hv]
        by_cases hpos : 0 < v
        · rw [if_pos hpos]
          constructor
          · intro hc; exact Option.noConfusion hc
          · intro hall
            have := hall d v rfl hv
            exact absurd hpos (not_lt.mpr this)
        · rw [if_neg hpos]
          constructor
          · intro _ d2 v2 hdd hvv
            cases hdd
            rw [hv] at hvv
            cases hvv
            exact not_lt.mp hpos
          · intro _; rfl
  · intro d v hd hv hpos
    show sanitizeDelay st.delay = _
    rw [hd]
    simp only [sanitizeDelay, hv]
    rw [if_pos hpos]
  · intro v
    refine ⟨le_max_left 0 _, max 0 ⌊v + 1/2⌋, ?_⟩
    unfold mathRound
    push_cast
    rfl
  · intro o ho
    rcases ho with h | ⟨s, hs, hts⟩
    · rw [h]; rfl
    · rw [hs]
      simp [delayTimezoneOf, hts]

/-- A step whose delay value is 3/2: used to instantiate C3. -/
def c3Step : RawStep :=
  ⟨none, none, none, none, none, none, none, none, none, false, none,
   some ⟨some (3/2), none, none⟩, none⟩

/-- Witness for C3: at delay value 3/2 the hypotheses hold and the kept delay
is value 2 (rounding half up), unit "days", timezone "profile". -/
theorem c3_delay_normalization_witness :
    (0:ℚ) < 3/2 ∧
      (sanitizeStep c3Step).delay =
        some ⟨some 2, some ("days".data), some ("profile".data)⟩ := by
  refine ⟨by norm_num, ?_⟩
  have h := (c3_delay_normalization c3Step).2.1 ⟨some (3/2), none, none⟩ (3/2)
    rfl rfl (by norm_num)
  rw [h]
  have hr : mathRound (3/2) = 2 := by
    unfold mathRound
    norm_num
  rw [hr]
  norm_num
  exact ⟨rfl, rfl⟩

/-- Claim C4: a tracking row survives normalization iff both its param and its
value are non-empty after trimming — the surviving rows are exactly the
sanitized images of the input rows whose trimmed fields are both non-empty,
in order — and a non-array customTracking field normalizes to the empty
sequence. -/
theorem c4_tracking_filter (st : RawStep) :
    (st.customTracking = none → (sanitizeStep st).customTracking = some [])
    ∧ (∀ rows, st.customTracking = some rows →
        (sanitizeStep st).customTracking =
          some ((rows.filter (fun t =>
            !(jsTrim (t.param.getD [])).isEmpty &&
              !(jsTrim (t.value.getD [])).isEmpty)).map sanitizeTrack)) := by
  constructor
  · intro h
    show some (sanitizeTracking st.customTracking) = some []
    rw [h]
    rfl
  · intro rows h
    show some (sanitizeTracking st.customTracking) = _
    rw [h]
    show some ((rows.map sanitizeTrack).filter trackKeep) = _
    rw [List.filter_map sanitizeTrack rows]
    rfl

/-- A step with three tracking rows, of which only the middle one has both
fields non-empty after trimming. -/
def c4Step : RawStep :=
  ⟨none, none, none, none, none, none, none, none, none, false, none, none,
   some [⟨some ("  ".data), some ("v1".data)⟩,
         ⟨some (" utm ".data), some ("email".data)⟩,
         ⟨some ("p3".data), none⟩]⟩

/-- Witness for C4: on a concrete step only the row with both fields
non-empty after trimming survives, with its fields trimmed. -/
theorem c4_tracking_filter_witness :
    (sanitizeStep c4Step).customTracking =
      some [⟨some ("utm".data), some ("email".data)⟩] := by
  have h := (c4_tracking_filter c4Step).2
    [⟨some ("  ".data), some ("v1".data)⟩,
     ⟨some (" utm ".data), some ("email".data)⟩,
     ⟨some ("p3".data), none⟩] rfl
  rw [h]
  decide

/-- Properties of unknown status and unit values: the claim quantifies over
inputs matching none of the recognised strings. -/
def statusUnknown (o : Option JStr) : Prop :=
  ∀ s, o = some s → s ∉ VALID_STATUSES

def unitUnknown (o : Option JStr) : Prop :=
  ∀ s, o = some s → s ∉ VALID_UNITS

/-- Claim C10: an unknown or missing status normalizes to "draft" and an
unknown or missing delay unit normalizes to "days"; consequently every
normalized step's status is one of the four valid statuses and every kept
delay's unit is one of the three valid units. -/
theorem c10_status_unit_coercion :
    (∀ o, normalizeStatus o ∈ VALID_STATUSES ∧
      (statusUnknown o → normalizeStatus o = "draft".data))
    ∧ (∀ o, normalizeDelayUnit o ∈ VALID_UNITS ∧
      (unitUnknown o → normalizeDelayUnit o = "days".data))
    ∧ (∀ st : RawStep,
        (sanitizeStep st).status = some (normalizeStatus st.status)
        ∧ normalizeStatus st.status ∈ VALID_STATUSES
        ∧ ∀ d, (sanitizeStep st).delay = some d →
            ∃ u, d.unit = some u ∧ u ∈ VALID_UNITS) := by
  refine ⟨?_, ?_, ?_⟩
  · intro o
    refine ⟨normalizeStatus_mem o, ?_⟩
    intro hunk
    cases o with
    | none => rfl
    | some s =>
      have hs : s ∉ VALID_STATUSES := hunk s rfl
      simp [normalizeStatus, hs]
  · intro o
    refine ⟨normalizeDelayUnit_mem o, ?_⟩
    intro hunk
    cases o with
    | none => rfl
    | some s =>
      have hs : s ∉ VALID_UNITS := hunk s rfl
      simp [normalizeDelayUnit, hs]
  · intro st
    refine ⟨rfl, normalizeStatus_mem st.status, ?_⟩
    intro d hd
    have hd2 : sanitizeDelay st.delay = some d := hd
    cases ho : st.delay with
    | none => rw [ho] at hd2; exact Option.noConfusion hd2
    | some dd =>
      rw [ho] at hd2
      cases hv : dd.value with
      | none => simp [sanitizeDelay, hv] at hd2
      | some v =>
        simp only [sanitizeDelay, hv] at hd2
        by_cases hpos : 0 < v
        · rw [if_pos hpos] at hd2
          cases hd2
          exact ⟨normalizeDelayUnit dd.unit, rfl, normalizeDelayUnit_mem dd.unit⟩
        · rw [if_neg hpos] at hd2
          exact Option.noConfusion hd2

/-- Witness for C10: the unknown status "weird" maps to "draft", the unknown
unit "weeks" maps to "days", and a step carrying both normalizes to a valid
status and unit. -/
theorem c10_status_unit_coercion_witness :
    normalizeStatus (some ("weird".data)) = "draft".data
    ∧ normalizeDelayUnit (some ("weeks".data)) = "days".data
    ∧ normalizeStatus (some ("weird".data)) ∈ VALID_STATUSES := by
  refine ⟨?_, ?_, ?_⟩
  · exact (c10_status_unit_coercion.1 (some ("weird".data))).2
      (by intro s hs; cases hs; decide)
  · exact (c10_status_unit_coercion.2.1 (some ("weeks".data))).2
      (by intro s hs; cases hs; decide)
  · exact (c10_status_unit_coercion.1 (some ("weird".data))).1

theorem findInvalidIdx_eq_of_first (l : List RawStep) (i : ℕ) (s : RawStep)
    (hget : l.get? i = some s) (hs : stepInvalid s = true)
    (hbefore : ∀ j, j < i → ∀ t, l.get? j = some t → stepInvalid t = false) :
    findInvalidIdx l = some i := by
  induction l generalizing i with
  | nil => simp at hget
  | cons a as ih =>
    cases i with
    | zero =>
      rw [List.get?_cons_zero] at hget
      cases hget
      simp [findInvalidIdx, hs]
    | succ n =>
      have ha : stepInvalid a = false := hbefore 0 (Nat.succ_pos n) a rfl
      rw [List.get?_cons_succ] at hget
      have hrec := ih n hget
        (fun j hj t ht => hbefore (j + 1) (Nat.succ_lt_succ hj) t
          (by rw [List.get?_cons_succ]; exact ht))
      simp [findInvalidIdx, ha, hrec]

/-- Claim C5: when the normalized payload passes the flow-name, trigger-type
and trigger-id checks and its step at (0-based) index i is the first one
missing subjectLine, fromEmail or fromName, validation returns exactly the
single message naming the step by its 1-based position i+1. -/
theorem c5_first_invalid_step (p : RawPayload) (i : ℕ) (s : RawStep)
    (hname : p.flowName ≠ []) (htt : isTriggerTypeValid p.trigger.type = true)
    (hid : p.trigger.id ≠ [])
    (hget : p.steps.get? i = some s) (hs : stepInvalid s = true)
    (hfirst : ∀ j, j < i → ∀ t, p.steps.get? j = some t →
      stepInvalid t = false) :
    validatePayload p = some (stepMissingMsg (i + 1)) := by
  have hne : p.steps ≠ [] := by
    intro hnil
    rw [hnil] at hget
    simp at hget
  have hfind := findInvalidIdx_eq_of_first p.steps i s hget hs hfirst
  unfold validatePayload
  rw [if_neg (by simp [List.isEmpty_iff, hname]),
    if_neg (by simp [htt]),
    if_neg (by simp [List.isEmpty_iff, hid]),
    if_neg (by simp [List.isEmpty_iff, hne]),
    hfind]

/-- A payload whose first step is valid and whose second step is missing its
from-email: the first violation is step 2. -/
def c5Payload : RawPayload :=
  ⟨"Launch".data, ⟨.str ("segment".data), "SEG1".data⟩,
   [⟨some [], some ("Hello".data), some [], some ("a@b.com".data),
     some ("Team".data), some [], some [], some [], some [], true,
     some ("draft".data), none, some []⟩,
    ⟨some [], some ("Again".data), some [], some [],
     some ("Team".data), some [], some [], some [], some [], true,
     some ("draft".data), none, some []⟩]⟩

/-- Witness for C5: on the concrete payload the message names step 2. -/
theorem c5_first_invalid_step_witness :
    validatePayload c5Payload = some ("Step 2 is missing subject, from name, or from email.".data) := by
  have h := c5_first_invalid_step c5Payload 1
    ⟨some [], some ("Again".data), some [], some [],
     some ("Team".data), some [], some [], some [], some [], true,
     some ("draft".data), none, some []⟩
    (by decide) (by decide) (by decide) (by decide) (by decide)
    (by
      intro j hj t ht
      interval_cases j
      · rw [show c5Payload.steps.get? 0
            = some ⟨some [], some ("Hello".data), some [], some ("a@b.com".data),
                    some ("Team".data), some [], some [], some [], some [], true,
                    some ("draft".data), none, some []⟩ from rfl] at ht
        cases ht
        decide)
  rw [h]
  rfl

/-- Claim C6: with zero steps, validation always fails; when the other checks
pass it fails with exactly the at-least-one-step message; and the handler
replies with status 400 without making the outbound provider call. -/
theorem c6_empty_steps (p : RawPayload) (hsteps : p.steps = []) :
    (validatePayload p).isSome = true
    ∧ (p.flowName ≠ [] → isTriggerTypeValid p.trigger.type = true →
        p.trigger.id ≠ [] → validatePayload p = some msgStepsRequired)
    ∧ (∀ (key : JStr) (j : JValue) (build : RawPayload → Except JStr JValue)
        (fetchOutcome : FetchOutcome), key ≠ [] →
        sanitizePayloadDyn j = .ok p →
        ∃ m, POST (some key) (.ok j) build fetchOutcome
          = ⟨.reply ⟨400, some m, none, none⟩, false⟩) := by
  have hisSome : (validatePayload p).isSome = true := by
    unfold validatePayload
    split
    · rfl
    · split
      · rfl
      · split
        · rfl
        · rw [if_pos (by simp [hsteps])]
          rfl
  refine ⟨hisSome, ?_, ?_⟩
  · intro hname htt hid
    unfold validatePayload
    rw [if_neg (by simp [List.isEmpty_iff, hname]),
      if_neg (by simp [htt]),
      if_neg (by simp [List.isEmpty_iff, hid]),
      if_pos (by simp [hsteps])]
  · intro key j build fetchOutcome hkey hsan
    obtain ⟨m, hm⟩ := Option.isSome_iff_exists.mp hisSome
    refine ⟨m, ?_⟩
    unfold POST
    rw [if_neg (by simp [List.isEmpty_iff, hkey])]
    simp only [hsan, hm]

/-- The concrete empty-steps request body and its sanitized payload. -/
def emptyStepsBody : JValue :=
  .obj [("flowName".data, .str ("x".data)),
        ("trigger".data, .obj [("type".data, .str ("list".data)),
                               ("id".data, .str ("y".data))]),
        ("steps".data, .arr [])]

def emptyStepsPayload : RawPayload :=
  ⟨"x".data, ⟨.str ("list".data), "y".data⟩, []⟩

/-- Witness for C6: the concrete empty-steps body sanitizes to a payload with
no steps, validation yields the at-least-one-step message, and the handler
replies 400 without calling the provider. -/
theorem c6_empty_steps_witness :
    validatePayload emptyStepsPayload = some msgStepsRequired
    ∧ ∃ m, POST (some ("k".data)) (.ok emptyStepsBody)
        (fun _ => .ok .null) (.failed [])
        = ⟨.reply ⟨400, some m, none, none⟩, false⟩ := by
  have h := c6_empty_steps emptyStepsPayload rfl
  refine ⟨h.2.1 (by decide) (by decide) (by decide), ?_⟩
  exact h.2.2 ("k".data) emptyStepsBody (fun _ => .ok .null) (.failed [])
    (by decide) rfl

/-- Claim C7: when the configured API key is absent the handler replies 500
with the configuration message, independently of the request body, the
definition builder and the provider, and makes no outbound call. -/
theorem c7_missing_key (body : Except JStr JValue)
    (build : RawPayload → Except JStr JValue) (fetchOutcome : FetchOutcome) :
    POST none body build fetchOutcome
      = ⟨.reply ⟨500, some msgKeyMissing, none, none⟩, false⟩ := rfl

/-- The body's `steps` property is not an array: reading it either throws
(body is `null`) or yields a non-array value (as for `{}`, where it is
`undefined`). -/
def stepsFieldNotArray (j : JValue) : Prop :=
  ∀ xs, getField j ("steps".data) ≠ Except.ok (.arr xs)

theorem sanitizePayloadDyn_throws (j : JValue) (h : stepsFieldNotArray j) :
    sanitizePayloadDyn j = .error () := by
  unfold sanitizePayloadDyn
  cases hg : getField j ("steps".data) with
  | error e =>
    cases e
    rfl
  | ok v =>
    cases v with
    | undefined => rfl
    | null => rfl
    | bool b => rfl
    | num q => rfl
    | str s => rfl
    | obj fields => rfl
    | arr xs => exact absurd hg (h xs)

/-- Claim C2: for every request whose body parses to JSON whose steps
property is not an array (such as the object without properties, or null),
the handler ends with an uncaught exception thrown inside sanitizePayload —
no JSON error response is produced and no provider call is made — while a
body that fails to parse at all is the only failure the route catches,
answered with the 400 invalid-JSON response. -/
theorem c2_unparsed_shape_throws :
    (∀ (key : JStr) (j : JValue) (build : RawPayload → Except JStr JValue)
        (fetchOutcome : FetchOutcome), key ≠ [] → stepsFieldNotArray j →
        POST (some key) (.ok j) build fetchOutcome = ⟨.uncaught, false⟩)
    ∧ (∀ (key msg : JStr) (build : RawPayload → Except JStr JValue)
        (fetchOutcome : FetchOutcome), key ≠ [] →
        POST (some key) (.error msg) build fetchOutcome
          = ⟨.reply ⟨400, some msgInvalidJson, some (.str msg), none⟩, false⟩) := by
  constructor
  · intro key j build fetchOutcome hkey hsteps
    unfold POST
    rw [if_neg (by simp [List.isEmpty_iff, hkey])]
    simp only [sanitizePayloadDyn_throws j hsteps]
  · intro key msg build fetchOutcome hkey
    unfold POST
    rw [if_neg (by simp [List.isEmpty_iff, hkey])]

/-- Witness for C2: at the concrete bodies the empty object and null the
handler ends uncaught, and at a failed parse it replies 400. -/
theorem c2_unparsed_shape_throws_witness :
    POST (some ("k".data)) (.ok (.obj [])) (fun _ => .ok .null) (.failed [])
      = ⟨.uncaught, false⟩
    ∧ POST (some ("k".data)) (.ok .null) (fun _ => .ok .null) (.failed [])
      = ⟨.uncaught, false⟩
    ∧ POST (some ("k".data)) (.error ("boom".data)) (fun _ => .ok .null) (.failed [])
      = ⟨.reply ⟨400, some msgInvalidJson, some (.str ("boom".data)), none⟩, false⟩ := by
  refine ⟨?_, ?_, ?_⟩
  · exact c2_unparsed_shape_throws.1 ("k".data) (.obj []) (fun _ => .ok .null)
      (.failed []) (by decide)
      (by intro xs hx; rw [show getField (.obj []) ("steps".data) = .ok .undefined from rfl] at hx
          injection hx with hx2; exact JValue.noConfusion hx2)
  · exact c2_unparsed_shape_throws.1 ("k".data) .null (fun _ => .ok .null)
      (.failed []) (by decide)
      (by intro xs hx; exact Except.noConfusion hx)
  · exact c2_unparsed_shape_throws.2 ("k".data) ("boom".data) (fun _ => .ok .null)
      (.failed []) (by decide)

/-- Claim C8: once the request reaches the outbound call (valid key, parsed
body, passing validation, successful definition build), a provider response
with a non-success HTTP status is relayed with that same status and the
provider's parsed body verbatim under details (a body is present exactly when
it parsed to something other than null), while a transport failure is
reported as the distinct 502 gateway category. -/
theorem c8_provider_error_relay (key : JStr) (j : JValue) (p : RawPayload)
    (build : RawPayload → Except JStr JValue) (defn : JValue)
    (hkey : key ≠ []) (hsan : sanitizePayloadDyn j = .ok p)
    (hval : validatePayload p = none) (hbuild : build p = .ok defn) :
    (∀ (st : ℕ) (json : JValue), ¬(200 ≤ st ∧ st ≤ 299) →
        POST (some key) (.ok j) build (.completed st json)
          = ⟨.reply ⟨st, some msgKlaviyoFailed, jsonDetails json, none⟩, true⟩)
    ∧ (∀ json : JValue, json ≠ .null → jsonDetails json = some json)
    ∧ (∀ m : JStr, POST (some key) (.ok j) build (.failed m)
        = ⟨.reply ⟨502, some msgReachFailed, some (.str m), none⟩, true⟩) := by
  refine ⟨?_, ?_, ?_⟩
  · intro st json hst
    unfold POST
    rw [if_neg (by simp [List.isEmpty_iff, hkey])]
    simp only [hsan, hval, hbuild]
    rw [if_neg hst]
  · intro json hjson
    cases json with
    | null => exact absurd rfl hjson
    | undefined => rfl
    | bool b => rfl
    | num q => rfl
    | str s => rfl
    | arr xs => rfl
    | obj fields => rfl
  · intro m
    unfold POST
    rw [if_neg (by simp [List.isEmpty_iff, hkey])]
    simp only [hsan, hval, hbuild]

/-- The concrete happy-path request body used to reach the provider call. -/
def goodBody : JValue :=
  .obj [("flowName".data, .str ("Welcome".data)),
        ("trigger".data, .obj [("type".data, .str ("list".data)),
                               ("id".data, .str ("ABC".data))]),
        ("steps".data, .arr [.obj [("subjectLine".data, .str ("Hi".data)),
                                   ("fromEmail".data, .str ("a@b.com".data)),
                                   ("fromName".data, .str ("Team".data))]])]

/-- The sanitized form of goodBody. -/
def goodPayload : RawPayload :=
  ⟨"Welcome".data, ⟨.str ("list".data), "ABC".data⟩,
   [⟨some [], some ("Hi".data), some [], some ("a@b.com".data),
     some ("Team".data), some [], some [], some [], some [], false,
     some ("draft".data), none, some []⟩]⟩

/-- A provider diagnostic body, as returned alongside an HTTP 422. -/
def providerBody422 : JValue :=
  .obj [("errors".data, .str ("invalid definition".data))]

/-- Witness for C8: on the concrete happy-path body, a provider 422 response
is relayed as 422 with its body under details, and a transport failure is
replied as 502. -/
theorem c8_provider_error_relay_witness :
    sanitizePayloadDyn goodBody = .ok goodPayload
    ∧ validatePayload goodPayload = none
    ∧ POST (some ("k".data)) (.ok goodBody) (fun _ => .ok .null)
        (.completed 422 providerBody422)
      = ⟨.reply ⟨422, some msgKlaviyoFailed, some providerBody422, none⟩, true⟩
    ∧ POST (some ("k".data)) (.ok goodBody) (fun _ => .ok .null)
        (.failed ("getaddrinfo ENOTFOUND".data))
      = ⟨.reply ⟨502, some msgReachFailed,
          some (.str ("getaddrinfo ENOTFOUND".data)), none⟩, true⟩ := by
  have hsan : sanitizePayloadDyn goodBody = .ok goodPayload := by rfl
  have hval : validatePayload goodPayload = none := by rfl
  have h := c8_provider_error_relay ("k".data) goodBody goodPayload
    (fun _ => .ok .null) .null (by decide) hsan hval rfl
  refine ⟨hsan, hval, ?_, h.2.2 ("getaddrinfo ENOTFOUND".data)⟩
  have h422 := h.1 422 providerBody422 (by omega)
  rw [h422]
  rfl

/-- Claim C9: in the payload serialized by the client's handleSubmit, each
step's replyToEmail is the trimmed fromEmail when the entered reply-to email
is blank (the empty string), and the trimmed entered reply-to email
otherwise. -/
theorem c9_replyto_default (flowName triggerType triggerId : JStr)
    (steps : List EmailStepForm) (i : ℕ) (s : EmailStepForm)
    (hget : steps.get? i = some s) :
    (clientPayload flowName triggerType triggerId steps).steps.get? i
        = some (serializeStep s)
    ∧ (s.replyToEmail = [] →
        (serializeStep s).replyToEmail = some (jsTrim s.fromEmail))
    ∧ (s.replyToEmail ≠ [] →
        (serializeStep s).replyToEmail = some (jsTrim s.replyToEmail)) := by
  refine ⟨?_, ?_, ?_⟩
  · show (steps.map serializeStep).get? i = some (serializeStep s)
    rw [List.get?_map, hget]
    rfl
  · intro hblank
    show some (jsTrim (if s.replyToEmail.isEmpty then s.fromEmail
        else s.replyToEmail)) = some (jsTrim s.fromEmail)
    rw [if_pos (by simp [List.isEmpty_iff, hblank])]
  · intro hfilled
    show some (jsTrim (if s.replyToEmail.isEmpty then s.fromEmail
        else s.replyToEmail)) = some (jsTrim s.replyToEmail)
    rw [if_neg (by simp [List.isEmpty_iff, hfilled])]

/-- A client step with a blank reply-to field. -/
def blankReplyStep : EmailStepForm :=
  ⟨"s1".data, [], "Hi".data, [], " a@b.com ".data, "Team".data, [],
   [], [], [], true, "draft".data, false, [], false, some 1, "days".data,
   "profile".data⟩

/-- A client step with a reply-to entered. -/
def filledReplyStep : EmailStepForm :=
  ⟨"s2".data, [], "Hi".data, [], "a@b.com".data, "Team".data,
   " support@b.com ".data, [], [], [], true, "draft".data, false, [], false,
   some 1, "days".data, "profile".data⟩

/-- Witness for C9: a blank reply-to serializes to the trimmed fromEmail, and
an entered reply-to serializes to its own trimmed value. -/
theorem c9_replyto_default_witness :
    (clientPayload ("F".data) ("list".data) ("L1".data)
        [blankReplyStep, filledReplyStep]).steps.get? 0
      = some (serializeStep blankReplyStep)
    ∧ (serializeStep blankReplyStep).replyToEmail = some ("a@b.com".data)
    ∧ (serializeStep filledReplyStep).replyToEmail = some ("support@b.com".data) := by
  have h0 := c9_replyto_default ("F".data) ("list".data) ("L1".data)
    [blankReplyStep, filledReplyStep] 0 blankReplyStep rfl
  have h1 := c9_replyto_default ("F".data) ("list".data) ("L1".data)
    [blankReplyStep, filledReplyStep] 1 filledReplyStep rfl
  refine ⟨h0.1, ?_, ?_⟩
  · rw [h0.2.1 rfl]
    decide
  · rw [h1.2.2 (by decide)]
    decide
